import Mathlib

/-!
Verification of the dinner-backend meal/drink allowance system.

This file gives a shallow embedding of the Django application's core logic
(`main/views.py`, `main/admin_views.py`, `main/models.py`) and proves or
refutes the specification claims about it.

Conventions of the embedding:
* machine time is modelled as `Int` seconds; `timedelta(days=7)` is 604800;
* the database is modelled as explicit Lean data (lists of records) that the
  translated view functions take and return;
* Python's falsy `None`/`""` for optional strings is modelled as `""`;
* weekday numbering follows Python's `datetime.weekday()`: Monday = 0,
  Friday = 4, Saturday = 5.
-/

/-! ## String utilities (Python `str` operations used by the views) -/

/-- Python `str.strip()` restricted to whitespace: drop leading and trailing
whitespace characters. -/
def strip (s : String) : String :=
  ⟨((s.data.dropWhile Char.isWhitespace).reverse.dropWhile Char.isWhitespace).reverse⟩

/-- Python `str.lower()` (ASCII case folding, which is all the app uses). -/
def lowr (s : String) : String := ⟨s.data.map Char.toLower⟩

/-- Python `str.upper()` (ASCII case folding). -/
def uppr (s : String) : String := ⟨s.data.map Char.toUpper⟩

/-- Whitespace split, Python `str.split()` with no argument: runs of
whitespace separate tokens, no empty tokens are produced. -/
def splitWsAux : List Char → List Char → List String
  | [], acc => if acc.isEmpty then [] else [⟨acc.reverse⟩]
  | c :: cs, acc =>
    if c.isWhitespace then
      if acc.isEmpty then splitWsAux cs [] else ⟨acc.reverse⟩ :: splitWsAux cs []
    else splitWsAux cs (c :: acc)

/-- Python `str.split()` on a whole string. -/
def splitWs (s : String) : List String := splitWsAux s.data []

/-- Python `sep.join(xs)`. -/
def joinWith (sep : String) : List String → String
  | [] => ""
  | [x] => x
  | x :: y :: xs => x ++ sep ++ joinWith sep (y :: xs)

/-- Is `needle` a contiguous sublist of `hay`?  (Python `needle in hay` on
strings, after `String.data`.) -/
def isSubList : List Char → List Char → Bool
  | n, [] => n.isEmpty
  | n, c :: t => n.isPrefixOf (c :: t) || isSubList n t

/-- Python `needle in hay` on strings (used on already-lowercased text). -/
def strContains (hay needle : String) : Bool := isSubList needle.data hay.data

/-- Django `__iexact` lookup: case-insensitive string equality. -/
def iexact (a b : String) : Bool := lowr a == lowr b

/-- Django `__icontains` lookup: case-insensitive substring containment
(`needle` occurs in the field `field`). -/
def icontains (field needle : String) : Bool :=
  isSubList (lowr needle).data (lowr field).data

/-- A `\w` character of the regex `[^\w\s]` used for punctuation stripping:
alphanumeric or underscore. -/
def isWordChar (c : Char) : Bool := c.isAlphanum || c == '_'

/-- `re.sub(r"[^\w\s]", "", message)`: drop every character that is neither a
word character nor whitespace. -/
def cleanMsg (s : String) : String :=
  ⟨s.data.filter (fun c => isWordChar c || c.isWhitespace)⟩

/-! ## Data model (`main/models.py`) -/

/-- `timedelta(days=7)` in seconds. -/
def weekSeconds : Int := 604800

/-- `main.models.User`: an event attendee with weekly allowance counters.
Only the fields the verified logic reads are modelled. -/
structure RUser where
  id : Nat
  first_name : String
  last_name : String
  gender : String
  lunches_remaining : Int
  dinners_remaining : Int
  drinks_remaining : Int
  has_friday_lunch : Bool
  has_saturday_lunch : Bool
  has_bbq : Bool
  week_start : Int
deriving DecidableEq, Repr

/-- `main.models.DrinkType`: a catalog entry with available stock. -/
structure DrinkType where
  name : String
  available_quantity : Int
deriving DecidableEq, Repr

/-- `main.models.DrinkTransaction`: a drink order in the approval workflow. -/
structure DrinkTransaction where
  user_id : Nat
  drink : String
  quantity : Int
  serving_point : String
  status : String
  approved_at : Option Int
deriving DecidableEq, Repr

/-- Outcome of a view call: HTTP-like success or failure with message and
status code. -/
inductive Resp
  | success
  | failure (msg : String) (code : Nat)
deriving DecidableEq, Repr

/-! ## Person resolution (`main/views.py`: `normalize_gender`,
`normalize_name`, `verify_user_exists`) -/

/-- `normalize_gender`: map F/M/FEMALE/MALE (any case) to canonical codes,
anything else (including empty) to `"UNKNOWN"`. -/
def normalize_gender (gender : String) : String :=
  if gender = "" then "UNKNOWN"
  else
    let g := uppr (strip gender)
    if g = "FEMALE" then "F"
    else if g = "MALE" then "M"
    else if g = "F" then "F"
    else if g = "M" then "M"
    else if g = "UNKNOWN" then "UNKNOWN"
    else "UNKNOWN"

/-- `normalize_name`: trim and collapse internal whitespace. -/
def normalize_name (name : String) : String :=
  if name = "" then "" else joinWith " " (splitWs (strip name))

/-- Does `u` match the (already normalized) first and last name
case-insensitively?  This is the queryset
`User.objects.filter(first_name__iexact=.., last_name__iexact=..)`. -/
def name_matches (nf nl : String) (u : RUser) : Bool :=
  iexact u.first_name nf && iexact u.last_name nl

/-- `verify_user_exists`: name-first lookup, gender used as a preference. -/
def verify_user_exists (db : List RUser) (first_name last_name gender : String) :
    Bool × Option RUser :=
  let ng := normalize_gender gender
  let nf := normalize_name first_name
  let nl := normalize_name last_name
  let users := db.filter (name_matches nf nl)
  if users.isEmpty then (false, none)
  else
    match users.find? (fun u => iexact u.gender ng) with
    | some u => (true, some u)
    | none => (true, users.head?)

/-! ## Allowance ledger (`main/models.py` `reset_weekly_allowance`,
`main/views.py` `consume_lunch` / `consume_dinner` / `consume_drink`,
`main/admin_views.py` `approve_order`) -/

/-- `User.reset_weekly_allowance`: lazily restore the weekly defaults when
more than seven days have elapsed since `week_start`. -/
def reset_weekly_allowance (now : Int) (u : RUser) : RUser :=
  if now - u.week_start > weekSeconds then
    { u with lunches_remaining := 3, dinners_remaining := 3,
             drinks_remaining := 15, week_start := now }
  else u

/-- The allowed-days list built by `consume_lunch` for its error message. -/
def allowed_days (u : RUser) : List String :=
  (if u.has_friday_lunch then ["Friday"] else [])
    ++ (if u.has_saturday_lunch then ["Saturday"] else [])

/-- The counter-check-and-decrement tail of `consume_lunch`. -/
def consume_lunch_core (u : RUser) : Resp × RUser :=
  if u.lunches_remaining ≤ 0 then (.failure "No lunches remaining" 400, u)
  else (.success, { u with lunches_remaining := u.lunches_remaining - 1 })

/-- `consume_lunch` after person resolution: weekly reset, day-restriction
checks, counter check, decrement.  `weekday` is Python's `weekday()`. -/
def consume_lunch (weekday : Nat) (now : Int) (u0 : RUser) : Resp × RUser :=
  let u := reset_weekly_allowance now u0
  if u.has_friday_lunch || u.has_saturday_lunch then
    if u.has_friday_lunch && !(weekday == 4) then
      (.failure "You are only registered for Friday lunch" 403, u)
    else if u.has_saturday_lunch && !u.has_friday_lunch && !(weekday == 5) then
      (.failure "You are only registered for Saturday lunch" 403, u)
    else if u.has_friday_lunch && u.has_saturday_lunch
        && !(weekday == 4 || weekday == 5) then
      (.failure ("You are only registered for "
          ++ joinWith " and " (allowed_days u) ++ " lunch") 403, u)
    else consume_lunch_core u
  else consume_lunch_core u

/-- `consume_dinner` after person resolution: weekly reset, counter check,
decrement.  No day restriction applies to dinner. -/
def consume_dinner (now : Int) (u0 : RUser) : Resp × RUser :=
  let u := reset_weekly_allowance now u0
  if u.dinners_remaining ≤ 0 then (.failure "No dinners remaining" 400, u)
  else (.success, { u with dinners_remaining := u.dinners_remaining - 1 })

/-- `consume_drink` after person and drink resolution: quantity validation,
stock check, weekly reset, allowance check, then creation of a *pending*
`DrinkTransaction` — no counter or stock is decremented at submission. -/
def consume_drink (quantity : Int) (now : Int) (serving_point : String)
    (u0 : RUser) (d : DrinkType) :
    Resp × RUser × DrinkType × Option DrinkTransaction :=
  if quantity < 1 then
    (.failure "quantity must be a positive integer" 400, u0, d, none)
  else if d.available_quantity < quantity then
    (.failure ("Insufficient stock. Only " ++ toString d.available_quantity
        ++ " " ++ d.name ++ " available") 400, u0, d, none)
  else
    let u := reset_weekly_allowance now u0
    if u.drinks_remaining < quantity then
      (.failure ("Insufficient allowance. Only " ++ toString u.drinks_remaining
          ++ " drinks remaining") 400, u, d, none)
    else
      (.success, u, d,
       some { user_id := u.id, drink := d.name, quantity := quantity,
              serving_point := serving_point, status := "pending",
              approved_at := none })

/-- `approve_order`: requires a pending order, re-validates allowance and
stock at approval time, and only on success deducts both and marks the
order approved. -/
def approve_order (now : Int) (u : RUser) (d : DrinkType) (t : DrinkTransaction) :
    Resp × RUser × DrinkType × DrinkTransaction :=
  if t.status ≠ "pending" then (.failure "Not found" 404, u, d, t)
  else if u.drinks_remaining < t.quantity then
    (.failure ("User only has " ++ toString u.drinks_remaining
        ++ " drinks remaining") 400, u, d, t)
  else if d.available_quantity < t.quantity then
    (.failure ("Only " ++ toString d.available_quantity ++ " " ++ d.name
        ++ " available") 400, u, d, t)
  else
    (.success,
     { u with drinks_remaining := u.drinks_remaining - t.quantity },
     { d with available_quantity := d.available_quantity - t.quantity },
     { t with status := "approved", approved_at := some now })

/-- A sample unrestricted user, fresh counters. -/
def sampleUser : RUser where
  id := 1
  first_name := "A"
  last_name := "B"
  gender := "F"
  lunches_remaining := 2
  dinners_remaining := 3
  drinks_remaining := 15
  has_friday_lunch := false
  has_saturday_lunch := false
  has_bbq := false
  week_start := 0

example : (consume_lunch_core sampleUser).2.lunches_remaining = 1 := by decide

/-! ## Registry lookup (`main/admin_views.py`: `_search_users_flexible`) -/

/-- `_search_users_flexible`: multi-strategy fuzzy name search, each strategy
returning at most 10 records, first non-empty strategy wins. -/
def search_users_flexible (db : List RUser) (name_query : String) : List RUser :=
  let nq := strip name_query
  if nq = "" then []
  else
    let parts := splitWs nq
    let firstTok := parts.headD ""
    let lastTok := parts.getLastD ""
    let r3 := if 3 ≤ parts.length then
        db.filter (fun u =>
          icontains u.first_name firstTok && icontains u.last_name lastTok)
      else []
    if !r3.isEmpty then r3.take 10
    else
      let rEq := if 2 ≤ parts.length then
          db.filter (fun u =>
            iexact u.first_name firstTok && iexact u.last_name lastTok)
        else []
      if !rEq.isEmpty then rEq.take 10
      else
        let rC := if 2 ≤ parts.length then
            db.filter (fun u =>
              icontains u.first_name firstTok && icontains u.last_name lastTok)
          else []
        if !rC.isEmpty then rC.take 10
        else
          let r1 := if parts.length = 1 then
              db.filter (fun u =>
                icontains u.first_name firstTok || icontains u.last_name firstTok)
            else []
          if !r1.isEmpty then r1.take 10 else []

/-! ## Intent classification (`main/admin_views.py`:
`_classify_query_intent`) -/

/-- One conversation-history entry as the classifier sees it. -/
structure HMsg where
  role : String
  content : String
deriving DecidableEq, Repr

/-- The classifier's structured output. -/
structure Intent where
  needs_stats : Bool
  needs_users : Bool
  needs_specific_user : Bool
  needs_drinks : Bool
  needs_transactions : Bool
  needs_meal_logs : Bool
  specific_user_name : Option String
  matched_user_ids : List Nat
deriving DecidableEq, Repr

def stats_keywords : List String :=
  ["how many", "total", "count", "statistics", "overview", "summary", "report"]

def user_keywords : List String :=
  ["user", "people", "delegate", "registered", "attendee", "member"]

def drink_keywords : List String :=
  ["drink", "beverage", "stock", "inventory", "bottle"]

def transaction_keywords : List String :=
  ["order", "transaction", "pending", "approval", "approved", "denied"]

def meal_keywords : List String :=
  ["meal", "lunch", "dinner", "bbq", "consumed", "eaten", "supper"]

def filler_words : List String :=
  ["did", "does", "has", "have", "is", "was", "were", "are",
   "the", "a", "an", "for", "to", "of", "and", "or", "in", "on",
   "how", "about", "what", "who", "where", "when", "why",
   "many", "much", "find", "search", "show", "tell", "me",
   "pay", "paid", "register", "registered", "check",
   "can", "could", "would", "should", "will", "do",
   "their", "his", "her", "my", "your", "our",
   "please", "thanks", "thank", "you", "i", "we", "they",
   "not", "no", "yes", "any", "all", "some",
   "this", "that", "these", "those", "it",
   "with", "from", "at", "by", "up", "out",
   "if", "but", "so", "then", "also", "just",
   "get", "got", "know", "see", "look",
   "meals", "meal", "lunch", "dinner", "bbq", "drinks", "drink",
   "remaining", "left", "allowance", "status"]

def followup_cues : List String :=
  ["them", "they", "her", "him", "she", "he",
   "this person", "that person", "those", "these people",
   "details", "more info", "more about", "elaborate",
   "tell me more", "give me details", "what about"]

def person_triggers : List String :=
  ["pay", "paid", "who is", "find", "about", "search",
   "how about", "check on", "look up", "allowance"]

/-- Strategy 3 of the classifier's name search: try each token of length ≥ 3
individually until one yields results. -/
def firstTokenHit (db : List RUser) : List String → List RUser
  | [] => []
  | t :: ts =>
    if 3 ≤ t.length then
      let r := search_users_flexible db t
      if r.isEmpty then firstTokenHit db ts else r
    else firstTokenHit db ts

/-- The name tokens of a message: punctuation-stripped words that are not
filler words and are longer than one character. -/
def nameTokens (message : String) : List String :=
  (splitWs (cleanMsg message)).filter
    (fun w => !(filler_words.contains (lowr w)) && 1 < w.length)

/-- The classifier's escalating name search over the extracted tokens:
full token string, then first + last token, then single tokens. -/
def classifierSearch (db : List RUser) (tokens : List String) : List RUser :=
  if tokens.isEmpty then []
  else
    let r1 := search_users_flexible db (joinWith " " tokens)
    let r2 := if r1.isEmpty && 2 ≤ tokens.length then
        search_users_flexible db (tokens.headD "" ++ " " ++ tokens.getLastD "")
      else r1
    if r2.isEmpty then firstTokenHit db tokens else r2

/-- `_classify_query_intent` up to (and excluding) the follow-up block:
keyword flags plus DB-backed name detection. -/
def base_intent (db : List RUser) (message : String) : Intent :=
  let ml := lowr message
  let tokens := nameTokens message
  let found := classifierSearch db tokens
  { needs_stats := stats_keywords.any (fun kw => strContains ml kw)
    needs_users := user_keywords.any (fun kw => strContains ml kw)
    needs_specific_user := !found.isEmpty
    needs_drinks := drink_keywords.any (fun kw => strContains ml kw)
    needs_transactions := transaction_keywords.any (fun kw => strContains ml kw)
    needs_meal_logs := meal_keywords.any (fun kw => strContains ml kw)
    specific_user_name := if found.isEmpty then none
                          else some (joinWith " " tokens)
    matched_user_ids := found.map (fun u => u.id) }

/-- The trailing person-trigger block of `_classify_query_intent`:
trigger phrases unconditionally set `needs_specific_user`. -/
def apply_person_triggers (message : String) (i : Intent) : Intent :=
  if person_triggers.any (fun kw => strContains (lowr message) kw) then
    { i with needs_specific_user := true }
  else i

/-- `_classify_query_intent(message)` with no conversation history: the
follow-up block is skipped.  This is exactly what the follow-up loop calls
on each prior message, so follow-up recursion has depth one. -/
def classify_solo (db : List RUser) (message : String) : Intent :=
  apply_person_triggers message (base_intent db message)

/-- The list the follow-up loop walks: contents of user-role history entries,
newest first, skipping entries whose stripped content equals the stripped
current message, truncated to 5. -/
def recent_user_msgs (conversation_history : List HMsg) (message : String) :
    List String :=
  ((conversation_history.reverse.filter
      (fun m => m.role == "user" && strip m.content ≠ strip message)).map
    (fun m => m.content)).take 5

/-- The follow-up loop body: classify each prior message without history and
return the first intent that matched a person. -/
def find_prev_resolved (db : List RUser) : List String → Option Intent
  | [] => none
  | m :: rest =>
    let pi := classify_solo db m
    if pi.matched_user_ids.isEmpty then find_prev_resolved db rest else some pi

/-- `_classify_query_intent(message, conversation_history)`: keyword flags,
name detection, follow-up resolution, person triggers. -/
def classify_query_intent (db : List RUser) (message : String)
    (conversation_history : List HMsg) : Intent :=
  let base := base_intent db message
  let withFollow :=
    if base.matched_user_ids.isEmpty && !conversation_history.isEmpty then
      if followup_cues.any (fun cue => strContains (lowr message) cue) then
        match find_prev_resolved db (recent_user_msgs conversation_history message) with
        | some p =>
          { base with needs_specific_user := true,
                      specific_user_name := p.specific_user_name,
                      matched_user_ids := p.matched_user_ids }
        | none => base
      else base
    else base
  apply_person_triggers message withFollow

/-- The scan list as claim C6 words it: the 5 most recent prior user
messages, excluding (only) the current one — the current message being the
last history entry at the call sites — newest first.  Stated from the
claim's words, for comparison with `recent_user_msgs`. -/
def spec_recent_user_msgs (conversation_history : List HMsg) : List String :=
  ((conversation_history.dropLast.reverse.filter
      (fun m => m.role == "user")).map (fun m => m.content)).take 5

/-! ## Conversation turn orchestrator (`main/views.py`: `chatbot_send`,
`chatbot_history`) -/

/-- `main.models.Conversation`.  A Django `null` session id is modelled as
`""` (both are falsy in the view's guards). -/
structure Conversation where
  id : Nat
  session_id : String
  title : String
deriving DecidableEq, Repr

/-- `main.models.ChatMessage`. -/
structure ChatMessageR where
  conversation : Nat
  role : String
  content : String
deriving DecidableEq, Repr

/-- The chat-related persistent store. -/
structure ChatState where
  convs : List Conversation
  msgs : List ChatMessageR
  nextId : Nat
deriving DecidableEq, Repr

/-- The response of `chatbot_send`. -/
inductive ChatResp
  | ok (conversation_id : Nat) (title : String) (reply : String)
  | err (msg : String) (code : Nat)
deriving DecidableEq, Repr

/-- The response of `chatbot_history`. -/
inductive HistResp
  | ok (conversation_id : Nat) (title : String) (messages : List ChatMessageR)
  | err (msg : String) (code : Nat)
deriving DecidableEq, Repr

/-- The get-or-create-conversation step of `chatbot_send`: look up an
existing conversation (404 when absent, 403 when both session keys are
non-empty and differ), or create a fresh one carrying the presented
session id. -/
def resolve_conversation (st : ChatState) (conversation_id : Option Nat)
    (session_id : String) : Except (String × Nat) (Conversation × ChatState) :=
  match conversation_id with
  | some cid =>
    match st.convs.find? (fun c => c.id == cid) with
    | none => .error ("Conversation not found", 404)
    | some conv =>
      if session_id ≠ "" ∧ conv.session_id ≠ "" ∧ conv.session_id ≠ session_id then
        .error ("session_id does not match this conversation", 403)
      else .ok (conv, st)
  | none =>
    let conv : Conversation :=
      { id := st.nextId, session_id := session_id, title := "New Conversation" }
    .ok (conv, { st with convs := st.convs ++ [conv], nextId := st.nextId + 1 })

/-- `chatbot_send`: one public conversation turn.  The completion function
is passed in as its outcome `ai` (`.error` models the provider call
raising; the whole view body sits in a `try` whose handler returns a 500
response, and each ORM write before the failure point remains persisted).
`titleF` is `AIService.generate_title`, which handles its own failures and
always returns a title. -/
def chatbot_send (ai : Except String String) (titleF : String → String)
    (st : ChatState) (message : String) (conversation_id : Option Nat)
    (session_id : String) : ChatResp × ChatState :=
  let m := strip message
  if m = "" then (.err "message is required" 400, st)
  else
    match resolve_conversation st conversation_id session_id with
    | .error (e, c) => (.err e c, st)
    | .ok (conv, st1) =>
      let st2 := { st1 with msgs := st1.msgs ++ [⟨conv.id, "user", m⟩] }
      match ai with
      | .error e => (.err e 500, st2)
      | .ok reply =>
        let st3 := { st2 with msgs := st2.msgs ++ [⟨conv.id, "assistant", reply⟩] }
        if (st3.msgs.filter (fun x => x.conversation == conv.id)).length = 2 then
          let t := titleF m
          let newConvs := st3.convs.map
            (fun c => if c.id == conv.id then { c with title := t } else c)
          (.ok conv.id t reply, { st3 with convs := newConvs })
        else (.ok conv.id conv.title reply, st3)

/-- `chatbot_history`: read-only history view with the same session guard. -/
def chatbot_history (st : ChatState) (conversation_id : Nat)
    (session_id : String) : HistResp :=
  match st.convs.find? (fun c => c.id == conversation_id) with
  | none => .err "Conversation not found" 404
  | some conv =>
    if session_id ≠ "" ∧ conv.session_id ≠ "" ∧ conv.session_id ≠ session_id then
      .err "session_id does not match this conversation" 403
    else
      .ok conv.id conv.title
        (st.msgs.filter (fun x => x.conversation == conv.id))

/-! ## Operation sequences over one person (for the counter invariant) -/

/-- One system state for the invariant: a person, one catalog entry, and the
pending drink orders against them. -/
structure SysState where
  user : RUser
  drink : DrinkType
  pending : List DrinkTransaction
deriving DecidableEq, Repr

/-- The consume/approve operations of the ledger, with their clock inputs. -/
inductive Op
  | lunch (weekday : Nat) (now : Int)
  | dinner (now : Int)
  | submit (quantity : Int) (now : Int)
  | approveAt (i : Nat) (now : Int)
deriving DecidableEq, Repr

/-- Apply one operation to the system state, exactly as the corresponding
view would: failed operations leave everything except the lazily-reset
counters unchanged; a successful submission appends a pending order; a
successful approval deducts and removes the order from the pending set. -/
def applyOp (s : SysState) : Op → SysState
  | .lunch wd now => { s with user := (consume_lunch wd now s.user).2 }
  | .dinner now => { s with user := (consume_dinner now s.user).2 }
  | .submit q now =>
    let r := consume_drink q now "bar" s.user s.drink
    { user := r.2.1, drink := r.2.2.1,
      pending := s.pending ++ (match r.2.2.2 with | some t => [t] | none => []) }
  | .approveAt i now =>
    match s.pending.get? i with
    | none => s
    | some t =>
      let r := approve_order now s.user s.drink t
      match r.1 with
      | .success => { user := r.2.1, drink := r.2.2.1,
                      pending := s.pending.eraseIdx i }
      | .failure _ _ => s

/-- The three counters lie within `[0, weekly default]`
(`WEEKLY_LUNCHES = 3`, `WEEKLY_DINNERS = 3`, `WEEKLY_DRINKS = 15`). -/
def countersOk (u : RUser) : Prop :=
  0 ≤ u.lunches_remaining ∧ u.lunches_remaining ≤ 3 ∧
  0 ≤ u.dinners_remaining ∧ u.dinners_remaining ≤ 3 ∧
  0 ≤ u.drinks_remaining ∧ u.drinks_remaining ≤ 15

instance (u : RUser) : Decidable (countersOk u) := by
  unfold countersOk; infer_instance

/-- Invariant carried through operation sequences: bounded counters and
positive quantities on every pending order. -/
def sysInv (s : SysState) : Prop :=
  countersOk s.user ∧ ∀ t ∈ s.pending, 1 ≤ t.quantity

instance (s : SysState) : Decidable (sysInv s) := by
  unfold sysInv; infer_instance

/-! ## Helper lemmas -/

theorem isPrefixOf_self_char (l : List Char) : l.isPrefixOf l = true := by
  induction l with
  | nil => rfl
  | cons a t ih => simp [List.isPrefixOf, ih]

theorem isSubList_self (l : List Char) : isSubList l l = true := by
  cases l with
  | nil => rfl
  | cons a t => simp [isSubList, isPrefixOf_self_char]

/-- A case-insensitive exact match is in particular a case-insensitive
containment match. -/
theorem iexact_icontains {a b : String} (h : iexact a b = true) :
    icontains a b = true := by
  unfold iexact at h
  unfold icontains
  rw [show lowr a = lowr b from eq_of_beq h]
  exact isSubList_self _

/-- Django's `.filter(p).first()` is `List.find?`. -/
theorem head?_filter_eq_find? {α : Type} (p : α → Bool) (l : List α) :
    (l.filter p).head? = l.find? p := by
  induction l with
  | nil => rfl
  | cons a t ih =>
    by_cases h : p a <;>
      simp [List.filter_cons, h, List.find?_cons_of_pos, List.find?_cons_of_neg, ih]

/-! ## C9: weekly reset is idempotent inside one window -/

/-- C9: calling `reset_weekly_allowance` a second time while still within
seven days of the (possibly just re-anchored) `week_start` is a no-op: the
first call that resets re-anchors `week_start`, so the second call's elapsed
time is within the window and it changes nothing. -/
theorem reset_weekly_allowance_idempotent (u : RUser) (t1 t2 : Int)
    (h : t2 - (reset_weekly_allowance t1 u).week_start ≤ weekSeconds) :
    reset_weekly_allowance t2 (reset_weekly_allowance t1 u)
      = reset_weekly_allowance t1 u := by
  by_cases h1 : t1 - u.week_start > weekSeconds
  · simp only [reset_weekly_allowance, if_pos h1] at h ⊢
    rw [if_neg]
    simp only [not_lt]
    simpa using h
  · simp only [reset_weekly_allowance, if_neg h1] at h ⊢
    rw [if_neg]
    simp only [not_lt]
    exact h

/-- Witness for C9: a user whose week is stale at the first call; the first
call resets and re-anchors, the second call one day later changes nothing. -/
theorem reset_weekly_allowance_idempotent_witness :
    700000 - (reset_weekly_allowance 650000 sampleUser).week_start ≤ weekSeconds
  ∧ reset_weekly_allowance 700000 (reset_weekly_allowance 650000 sampleUser)
      = reset_weekly_allowance 650000 sampleUser :=
  ⟨by decide, reset_weekly_allowance_idempotent sampleUser 650000 700000 (by decide)⟩

/-! ## C1: lunch day-restriction eligibility -/

/-- A user registered for both Friday and Saturday lunch, with lunches
available and a fresh week. -/
def bothFlagsUser : RUser where
  id := 7
  first_name := "Ann"
  last_name := "Lee"
  gender := "F"
  lunches_remaining := 3
  dinners_remaining := 3
  drinks_remaining := 15
  has_friday_lunch := true
  has_saturday_lunch := true
  has_bbq := false
  week_start := 0

/-- C1: the code rejects a Friday-and-Saturday user on Saturday.  The
`has_friday_lunch`-only check fires before the both-flags branch, so on
Saturday (`weekday = 5`) the request fails with the Friday-only message and
no lunch is consumed, although the user has three lunches remaining and the
code's own (unreachable) both-flags branch names both days as allowed. -/
theorem lunch_both_flags_saturday_rejected :
    bothFlagsUser.has_friday_lunch = true
  ∧ bothFlagsUser.has_saturday_lunch = true
  ∧ bothFlagsUser.lunches_remaining = 3
  ∧ (consume_lunch 5 0 bothFlagsUser).1
      = Resp.failure "You are only registered for Friday lunch" 403
  ∧ (consume_lunch 5 0 bothFlagsUser).2.lunches_remaining = 3 := by decide

/-! ## C2: approval-time re-validation -/

/-- C2: approving a pending order whose stock or allowance no longer covers
the quantity fails with the specific shortfall message and leaves the
allowance, the stock, and the order (still pending) unchanged. -/
theorem approve_order_revalidation (now : Int) (u : RUser) (d : DrinkType)
    (t : DrinkTransaction) (hp : t.status = "pending")
    (hs : d.available_quantity < t.quantity ∨ u.drinks_remaining < t.quantity) :
    (approve_order now u d t).1 = Resp.failure
      (if u.drinks_remaining < t.quantity
       then "User only has " ++ toString u.drinks_remaining ++ " drinks remaining"
       else "Only " ++ toString d.available_quantity ++ " " ++ d.name ++ " available")
      400
  ∧ (approve_order now u d t).2.1 = u
  ∧ (approve_order now u d t).2.2.1 = d
  ∧ (approve_order now u d t).2.2.2 = t := by
  unfold approve_order
  rw [if_neg (by simp [hp])]
  by_cases h1 : u.drinks_remaining < t.quantity
  · rw [if_pos h1, if_pos h1]
    exact ⟨rfl, rfl, rfl, rfl⟩
  · have h2 : d.available_quantity < t.quantity := by
      rcases hs with h | h
      · exact h
      · exact absurd h h1
    rw [if_neg h1, if_neg h1, if_pos h2]
    exact ⟨rfl, rfl, rfl, rfl⟩

/-- A pending order for five drinks. -/
def pendingFive : DrinkTransaction where
  user_id := 1
  drink := "Cola"
  quantity := 5
  serving_point := "bar"
  status := "pending"
  approved_at := none

/-- The catalog entry after stock dropped to three. -/
def colaThree : DrinkType where
  name := "Cola"
  available_quantity := 3

/-- Witness for C2: the spec's own example — pending quantity 5, stock
dropped to 3, ample allowance: approval fails naming the 3 available and
everything is left untouched. -/
theorem approve_order_revalidation_witness :
    pendingFive.status = "pending"
  ∧ (colaThree.available_quantity < pendingFive.quantity
      ∨ sampleUser.drinks_remaining < pendingFive.quantity)
  ∧ (approve_order 0 sampleUser colaThree pendingFive).1
      = Resp.failure "Only 3 Cola available" 400
  ∧ (approve_order 0 sampleUser colaThree pendingFive).2.2.2 = pendingFive :=
  ⟨rfl, by decide,
   by
    have h := approve_order_revalidation 0 sampleUser colaThree pendingFive rfl
      (by decide)
    rw [h.1]
    decide,
   (approve_order_revalidation 0 sampleUser colaThree pendingFive rfl
      (by decide)).2.2.2⟩

/-! ## C3: pending submission, deferred decrement -/

/-- A user with five drinks remaining whose `week_start` is stale. -/
def staleFive : RUser where
  id := 1
  first_name := "Pat"
  last_name := "Kim"
  gender := "M"
  lunches_remaining := 3
  dinners_remaining := 3
  drinks_remaining := 5
  has_friday_lunch := false
  has_saturday_lunch := false
  has_bbq := false
  week_start := 0

/-- A catalog entry with ten units of Cola. -/
def colaTen : DrinkType where
  name := "Cola"
  available_quantity := 10

/-- Counterexample to C3 as stated: a fully valid submission (quantity 2,
stock 10 ≥ 2, allowance 5 ≥ 2, person and drink found) at a time more than
seven days past `week_start` creates the pending order but DOES change the
person's `drinks_remaining` — the lazy weekly reset inside `consume_drink`
restores it to the default 15 before the order is created. -/
theorem consume_drink_changes_counter_on_reset :
    (consume_drink 2 604801 "bar" staleFive colaTen).1 = Resp.success
  ∧ (∃ t, (consume_drink 2 604801 "bar" staleFive colaTen).2.2.2 = some t
        ∧ t.status = "pending")
  ∧ staleFive.drinks_remaining = 5
  ∧ (consume_drink 2 604801 "bar" staleFive colaTen).2.1.drinks_remaining = 15 := by
  refine ⟨by decide, ⟨_, rfl, rfl⟩, rfl, by decide⟩

/-- C3 (amended): when validation passes and the lazy weekly reset does not
trigger (at most seven days since `week_start`), submission creates a
pending order of the requested quantity and changes neither the person's
counter nor the catalog stock; a subsequent successful approval then
decrements both by exactly that quantity and marks the order approved. -/
theorem consume_drink_then_approve (q now now2 : Int) (sp : String)
    (u : RUser) (d : DrinkType)
    (hq : 1 ≤ q) (hres : now - u.week_start ≤ weekSeconds)
    (hstock : q ≤ d.available_quantity) (hall : q ≤ u.drinks_remaining) :
    (consume_drink q now sp u d).1 = Resp.success
  ∧ (consume_drink q now sp u d).2.1 = u
  ∧ (consume_drink q now sp u d).2.2.1 = d
  ∧ ∃ t, (consume_drink q now sp u d).2.2.2 = some t
      ∧ t.status = "pending" ∧ t.quantity = q
      ∧ (approve_order now2 u d t).1 = Resp.success
      ∧ (approve_order now2 u d t).2.1.drinks_remaining = u.drinks_remaining - q
      ∧ (approve_order now2 u d t).2.2.1.available_quantity
          = d.available_quantity - q
      ∧ (approve_order now2 u d t).2.2.2.status = "approved" := by
  have hnr : reset_weekly_allowance now u = u := by
    unfold reset_weekly_allowance
    rw [if_neg (by omega)]
  unfold consume_drink
  rw [if_neg (by omega), if_neg (by omega), hnr, if_neg (by omega)]
  refine ⟨rfl, rfl, rfl, _, rfl, rfl, rfl, ?_⟩
  unfold approve_order
  rw [if_neg (by simp), if_neg (by simp; omega), if_neg (by simp; omega)]
  exact ⟨rfl, rfl, rfl, rfl⟩

/-- Witness for C3 (amended): the spec's example — quantity 2 against
allowance 5 and stock 10 leaves 5 and 10 at submission, then 3 and 8 after
approval. -/
theorem consume_drink_then_approve_witness :
    (consume_drink 2 0 "bar" (reset_weekly_allowance 0 staleFive) colaTen).2.1
      = reset_weekly_allowance 0 staleFive
  ∧ (consume_drink 2 0 "bar" (reset_weekly_allowance 0 staleFive) colaTen).2.2.1
      = colaTen := by
  have h := consume_drink_then_approve 2 0 0 "bar"
    (reset_weekly_allowance 0 staleFive) colaTen
    (by decide) (by decide) (by decide) (by decide)
  exact ⟨h.2.1, h.2.2.1⟩

/-! ## C4: counters stay within bounds -/

theorem countersOk_reset (now : Int) (u : RUser) (h : countersOk u) :
    countersOk (reset_weekly_allowance now u) := by
  unfold reset_weekly_allowance
  split
  · unfold countersOk
    simp
  · exact h

theorem countersOk_lunch_core (u : RUser) (h : countersOk u) :
    countersOk (consume_lunch_core u).2 := by
  unfold consume_lunch_core
  split
  · exact h
  · unfold countersOk at h ⊢
    simp at h ⊢
    omega

theorem countersOk_consume_lunch (wd : Nat) (now : Int) (u : RUser)
    (h : countersOk u) : countersOk (consume_lunch wd now u).2 := by
  have hr := countersOk_reset now u h
  unfold consume_lunch
  dsimp only
  split
  · split
    · exact hr
    · split
      · exact hr
      · split
        · exact hr
        · exact countersOk_lunch_core _ hr
  · exact countersOk_lunch_core _ hr

theorem countersOk_consume_dinner (now : Int) (u : RUser)
    (h : countersOk u) : countersOk (consume_dinner now u).2 := by
  have hr := countersOk_reset now u h
  unfold consume_dinner
  dsimp only
  split
  · exact hr
  · unfold countersOk at hr ⊢
    simp at hr ⊢
    omega

theorem countersOk_consume_drink (q now : Int) (sp : String) (u : RUser)
    (d : DrinkType) (h : countersOk u) :
    countersOk (consume_drink q now sp u d).2.1 := by
  have hr := countersOk_reset now u h
  unfold consume_drink
  dsimp only
  split
  · exact h
  · split
    · exact h
    · split
      · exact hr
      · exact hr

theorem consume_drink_some_quantity (q now : Int) (sp : String) (u : RUser)
    (d : DrinkType) (t : DrinkTransaction)
    (ht : (consume_drink q now sp u d).2.2.2 = some t) : 1 ≤ t.quantity := by
  unfold consume_drink at ht
  dsimp only at ht
  split at ht
  · simp at ht
  · split at ht
    · simp at ht
    · split at ht
      · simp at ht
      · dsimp only at ht
        injection ht with ht2
        subst ht2
        dsimp only
        omega

theorem countersOk_approve (now : Int) (u : RUser) (d : DrinkType)
    (t : DrinkTransaction) (h : countersOk u) (hq : 1 ≤ t.quantity)
    (hs : (approve_order now u d t).1 = Resp.success) :
    countersOk (approve_order now u d t).2.1 := by
  unfold approve_order at hs ⊢
  by_cases c1 : t.status ≠ "pending"
  · rw [if_pos c1] at hs
    simp at hs
  · rw [if_neg c1] at hs ⊢
    by_cases c2 : u.drinks_remaining < t.quantity
    · rw [if_pos c2] at hs
      simp at hs
    · rw [if_neg c2] at hs ⊢
      by_cases c3 : d.available_quantity < t.quantity
      · rw [if_pos c3] at hs
        simp at hs
      · rw [if_neg c3]
        unfold countersOk at h ⊢
        simp at h ⊢
        omega

/-- The full per-operation invariant preservation. -/
theorem sysInv_applyOp (s : SysState) (op : Op) (h : sysInv s) :
    sysInv (applyOp s op) := by
  obtain ⟨hc, hp⟩ := h
  cases op with
  | lunch wd now => exact ⟨countersOk_consume_lunch wd now s.user hc, hp⟩
  | dinner now => exact ⟨countersOk_consume_dinner now s.user hc, hp⟩
  | submit q now =>
    refine ⟨countersOk_consume_drink q now "bar" s.user s.drink hc, ?_⟩
    intro t ht
    simp only [applyOp] at ht
    rcases List.mem_append.mp ht with h1 | h2
    · exact hp t h1
    · cases hE : (consume_drink q now "bar" s.user s.drink).2.2.2 with
      | none =>
        rw [hE] at h2
        cases h2
      | some t0 =>
        rw [hE] at h2
        simp at h2
        subst h2
        exact consume_drink_some_quantity q now "bar" s.user s.drink t hE
  | approveAt i now =>
    simp only [applyOp]
    cases hg : s.pending.get? i with
    | none => exact ⟨hc, hp⟩
    | some t =>
      dsimp only
      have hqt : 1 ≤ t.quantity := hp t (List.get?_mem hg)
      cases hr : (approve_order now s.user s.drink t).1 with
      | success =>
        dsimp only
        refine ⟨countersOk_approve now s.user s.drink t hc hqt hr, ?_⟩
        intro t2 ht2
        exact hp t2 (List.eraseIdx_subset _ _ ht2)
      | failure m c => exact ⟨hc, hp⟩

theorem sysInv_foldl (ops : List Op) (s : SysState) (h : sysInv s) :
    sysInv (ops.foldl applyOp s) := by
  induction ops generalizing s with
  | nil => exact h
  | cons op rest ih => exact ih (applyOp s op) (sysInv_applyOp s op h)

/-- C4: starting from any person whose three counters lie in
`[0, weekly default]` and no pre-existing pending orders, after any sequence
of consume-lunch, consume-dinner, drink-submission and drink-approval
operations (each of which may lazily reset the week) the three counters
still lie within `[0, weekly default]`. -/
theorem counters_stay_bounded (ops : List Op) (s : SysState)
    (h1 : countersOk s.user) (h2 : s.pending = []) :
    countersOk ((ops.foldl applyOp s).user) :=
  (sysInv_foldl ops s ⟨h1, by rw [h2]; intro t ht; cases ht⟩).1

/-- Witness for C4: a concrete user run through a lunch, a dinner, a
submission and an approval, with a stale week triggering the lazy reset. -/
theorem counters_stay_bounded_witness :
    countersOk (([Op.lunch 2 700000, Op.dinner 700000, Op.submit 4 700001,
        Op.approveAt 0 700002].foldl applyOp
      { user := staleFive, drink := colaTen, pending := [] }).user) :=
  counters_stay_bounded _ _ (by decide) rfl

/-! ## C7: completion failure leaves persisted state intact -/

/-- Conversation resolution never touches the message table. -/
theorem resolve_conversation_msgs (st : ChatState) (cid : Option Nat)
    (sid : String) (conv : Conversation) (st1 : ChatState)
    (hr : resolve_conversation st cid sid = .ok (conv, st1)) :
    st1.msgs = st.msgs := by
  unfold resolve_conversation at hr
  cases cid with
  | none =>
    dsimp only at hr
    injection hr with h1
    injection h1 with ha hb
    rw [← hb]
  | some c =>
    dsimp only at hr
    cases hf : st.convs.find? (fun x => x.id == c) with
    | none =>
      rw [hf] at hr
      cases hr
    | some cv =>
      rw [hf] at hr
      dsimp only at hr
      split at hr
      · cases hr
      · injection hr with h1
        injection h1 with ha hb
        rw [← hb]

/-- C7: when the completion call raises, `chatbot_send` returns the error as
a failure response and the persisted state ends exactly one user message
past where it stood — the inbound user message is saved, and no assistant
message is recorded for the turn. -/
theorem chatbot_send_ai_failure (st : ChatState) (msg : String)
    (cid : Option Nat) (sid e : String) (titleF : String → String)
    (conv : Conversation) (st1 : ChatState)
    (hm : strip msg ≠ "")
    (hr : resolve_conversation st cid sid = .ok (conv, st1)) :
    (chatbot_send (.error e) titleF st msg cid sid).1 = ChatResp.err e 500
  ∧ (chatbot_send (.error e) titleF st msg cid sid).2.msgs
      = st.msgs ++ [⟨conv.id, "user", strip msg⟩] := by
  unfold chatbot_send
  rw [if_neg hm, hr]
  dsimp only
  exact ⟨rfl, by rw [resolve_conversation_msgs st cid sid conv st1 hr]⟩

/-- A one-conversation store with a stored session key. -/
def convKeyed : Conversation where
  id := 1
  session_id := "k1"
  title := "Conv"

/-- Chat store holding only `convKeyed`, no messages. -/
def stKeyed : ChatState where
  convs := [convKeyed]
  msgs := []
  nextId := 2

/-- Witness for C7: a concrete turn on the keyed conversation where the
provider raises; the user message is persisted, nothing else. -/
theorem chatbot_send_ai_failure_witness :
    (chatbot_send (.error "boom") (fun _ => "T") stKeyed "hello" (some 1) "k1").1
      = ChatResp.err "boom" 500
  ∧ (chatbot_send (.error "boom") (fun _ => "T") stKeyed "hello" (some 1) "k1").2.msgs
      = [⟨1, "user", "hello"⟩] := by
  have h := chatbot_send_ai_failure stKeyed "hello" (some 1) "k1" "boom"
    (fun _ => "T") convKeyed stKeyed (by decide) rfl
  exact ⟨h.1, by rw [h.2]; decide⟩

/-! ## C8: session-key ownership enforcement -/

/-- A conversation stored with no session key (Django `null`). -/
def convNull : Conversation where
  id := 1
  session_id := ""
  title := "Conv"

/-- Chat store holding only `convNull`, no messages. -/
def stNull : ChatState where
  convs := [convNull]
  msgs := []
  nextId := 2

/-- Counterexample to C8 as stated: against a conversation stored without a
session key, presenting the non-matching session key "abc" is silently
accepted — both sending a message and reading history succeed instead of
returning a client error. -/
theorem session_guard_skipped_counterexample :
    convNull.session_id ≠ "abc"
  ∧ (chatbot_send (.ok "reply") (fun _ => "Title") stNull "hi" (some 1) "abc").1
      = ChatResp.ok 1 "Title" "reply"
  ∧ chatbot_history stNull 1 "abc" = HistResp.ok 1 "Conv" [] := by decide

/-- C8 (amended): when the conversation's stored session key is non-empty
and a non-empty, different session key is presented, both `chatbot_send`
and `chatbot_history` reject the request with the 403 mismatch error, and
sending changes nothing. -/
theorem session_mismatch_rejected (ai : Except String String)
    (titleF : String → String) (st : ChatState) (msg : String) (cid : Nat)
    (sid : String) (conv : Conversation)
    (hm : strip msg ≠ "")
    (hf : st.convs.find? (fun c => c.id == cid) = some conv)
    (h1 : conv.session_id ≠ "") (h2 : sid ≠ "") (h3 : conv.session_id ≠ sid) :
    chatbot_send ai titleF st msg (some cid) sid
      = (ChatResp.err "session_id does not match this conversation" 403, st)
  ∧ chatbot_history st cid sid
      = HistResp.err "session_id does not match this conversation" 403 := by
  constructor
  · unfold chatbot_send resolve_conversation
    rw [if_neg hm]
    dsimp only
    rw [hf]
    dsimp only
    rw [if_pos ⟨h2, h1, h3⟩]
  · unfold chatbot_history
    rw [hf]
    dsimp only
    rw [if_pos ⟨h2, h1, h3⟩]

/-- Witness for C8 (amended): presenting "other" against stored key "k1" is
rejected by both endpoints. -/
theorem session_mismatch_rejected_witness :
    chatbot_send (.ok "r") (fun _ => "T") stKeyed "hi" (some 1) "other"
      = (ChatResp.err "session_id does not match this conversation" 403, stKeyed)
  ∧ chatbot_history stKeyed 1 "other"
      = HistResp.err "session_id does not match this conversation" 403 :=
  session_mismatch_rejected (.ok "r") (fun _ => "T") stKeyed "hi" 1 "other"
    convKeyed (by decide) (by decide) (by decide) (by decide) (by decide)

/-! ## C10: name-first person resolution with gender preference -/

/-- C10: for person resolution, (1) the requested gender always normalizes
to F, M or UNKNOWN; (2) not-found happens exactly when no record matches
first and last name case-insensitively; (3) not-found returns no record;
(4) if some name-matching record also matches the normalized gender, the
first such record is returned; (5) if no name-matching record matches the
gender, the first name-matching record (if any) is returned anyway. -/
theorem person_resolution_gender_preference (db : List RUser) (f l g : String) :
    (normalize_gender g = "F" ∨ normalize_gender g = "M"
      ∨ normalize_gender g = "UNKNOWN")
  ∧ ((verify_user_exists db f l g).1 = false
      ↔ ∀ u ∈ db, name_matches (normalize_name f) (normalize_name l) u = false)
  ∧ ((verify_user_exists db f l g).1 = false →
      (verify_user_exists db f l g).2 = none)
  ∧ (∀ u0, db.find? (fun u =>
        name_matches (normalize_name f) (normalize_name l) u
        && iexact u.gender (normalize_gender g)) = some u0 →
      (verify_user_exists db f l g).2 = some u0)
  ∧ ((∀ u ∈ db, ¬(name_matches (normalize_name f) (normalize_name l) u
        && iexact u.gender (normalize_gender g)) = true) →
      (verify_user_exists db f l g).2
        = db.find? (name_matches (normalize_name f) (normalize_name l))) := by
  have hfun : (fun a => decide (name_matches (normalize_name f) (normalize_name l) a = true
        ∧ iexact a.gender (normalize_gender g) = true))
      = (fun u => name_matches (normalize_name f) (normalize_name l) u
        && iexact u.gender (normalize_gender g)) := by
    funext a
    simp [Bool.decide_and]
  have hfilter : (db.filter (name_matches (normalize_name f) (normalize_name l))).find?
        (fun u => iexact u.gender (normalize_gender g))
      = db.find? (fun u => name_matches (normalize_name f) (normalize_name l) u
        && iexact u.gender (normalize_gender g)) := by
    rw [List.find?_filter, hfun]
  refine ⟨?_, ?_, ?_, ?_, ?_⟩
  · simp only [normalize_gender]
    split_ifs <;> simp
  · unfold verify_user_exists
    dsimp only
    by_cases hE : (db.filter (name_matches (normalize_name f) (normalize_name l))).isEmpty
    · rw [if_pos hE]
      have hnil := List.isEmpty_iff.mp hE
      have hall := List.filter_eq_nil_iff.mp hnil
      simp only [Bool.not_eq_true] at hall
      simpa using hall
    · rw [if_neg hE]
      have hne : db.filter (name_matches (normalize_name f) (normalize_name l)) ≠ [] := by
        intro h0
        rw [h0] at hE
        exact hE rfl
      obtain ⟨x, hx⟩ := List.exists_mem_of_ne_nil _ hne
      have hxs := List.mem_filter.mp hx
      have hfalse : ¬ ∀ u ∈ db,
          name_matches (normalize_name f) (normalize_name l) u = false := by
        intro hall
        have hx2 := hall x hxs.1
        rw [hxs.2] at hx2
        cases hx2
      cases hfr : (db.filter (name_matches (normalize_name f) (normalize_name l))).find?
          (fun u => iexact u.gender (normalize_gender g)) with
      | none =>
        dsimp only
        exact ⟨fun h => absurd h (by decide), fun hall => absurd hall hfalse⟩
      | some u =>
        dsimp only
        exact ⟨fun h => absurd h (by decide), fun hall => absurd hall hfalse⟩
  · unfold verify_user_exists
    dsimp only
    by_cases hE : (db.filter (name_matches (normalize_name f) (normalize_name l))).isEmpty
    · rw [if_pos hE]
      intro _
      rfl
    · rw [if_neg hE]
      intro hcontra
      cases hfr : (db.filter (name_matches (normalize_name f) (normalize_name l))).find?
          (fun u => iexact u.gender (normalize_gender g)) <;>
        rw [hfr] at hcontra <;> simp at hcontra
  · intro u0 hu0
    unfold verify_user_exists
    dsimp only
    have hfind : (db.filter (name_matches (normalize_name f) (normalize_name l))).find?
        (fun u => iexact u.gender (normalize_gender g)) = some u0 := by
      rw [hfilter]
      exact hu0
    have hmem := List.mem_of_find?_eq_some hfind
    have hE : ¬ (db.filter (name_matches (normalize_name f) (normalize_name l))).isEmpty = true := by
      intro hI
      rw [List.isEmpty_iff.mp hI] at hmem
      cases hmem
    rw [if_neg hE, hfind]
  · intro hnone
    unfold verify_user_exists
    dsimp only
    have hfind : (db.filter (name_matches (normalize_name f) (normalize_name l))).find?
        (fun u => iexact u.gender (normalize_gender g)) = none := by
      rw [hfilter, List.find?_eq_none]
      intro x hx
      have hx2 := hnone x hx
      simpa using hx2
    by_cases hE : (db.filter (name_matches (normalize_name f) (normalize_name l))).isEmpty
    · rw [if_pos hE]
      have hnofind : db.find? (name_matches (normalize_name f) (normalize_name l)) = none := by
        rw [List.find?_eq_none]
        intro x hx
        exact List.filter_eq_nil_iff.mp (List.isEmpty_iff.mp hE) x hx
      rw [hnofind]
    · rw [if_neg hE, hfind]
      exact head?_filter_eq_find? _ _


/-- A male and a female record sharing the same full name. -/
def uMike : RUser where
  id := 21
  first_name := "Mia"
  last_name := "Stone"
  gender := "M"
  lunches_remaining := 3
  dinners_remaining := 3
  drinks_remaining := 15
  has_friday_lunch := false
  has_saturday_lunch := false
  has_bbq := false
  week_start := 0

/-- The female record with the same name as `uMike`. -/
def uMia : RUser where
  id := 22
  first_name := "Mia"
  last_name := "Stone"
  gender := "F"
  lunches_remaining := 3
  dinners_remaining := 3
  drinks_remaining := 15
  has_friday_lunch := false
  has_saturday_lunch := false
  has_bbq := false
  week_start := 0

/-- Witness for C10: querying "mia stone" with gender "female" (note the
case and the long-form gender) skips the first name-matching record (male)
and returns the gender-matching one. -/
theorem person_resolution_witness :
    (verify_user_exists [uMike, uMia] "mia" "stone" "female").2 = some uMia :=
  (person_resolution_gender_preference [uMike, uMia] "mia" "stone" "female").2.2.2.1
    uMia (by decide)

/-! ## C5: multi-token registry lookup -/

/-- Every branch of the lookup caps its result at 10 records. -/
theorem search_users_flexible_le_ten (db : List RUser) (p : String) :
    (search_users_flexible db p).length ≤ 10 := by
  unfold search_users_flexible
  dsimp only
  repeat' split
  all_goals first
    | exact List.length_take_le 10 _
    | simp

/-- C5: on a candidate of three or more whitespace tokens, the lookup
returns exactly the records whose first name contains the first token and
whose last name contains the last token (case-insensitive substring),
capped at the first 10; and on any candidate whatsoever it returns at most
10 records. -/
theorem search_three_tokens (db : List RUser) (q : String)
    (h : 3 ≤ (splitWs (strip q)).length) :
    search_users_flexible db q
      = (db.filter (fun u =>
          icontains u.first_name ((splitWs (strip q)).headD "")
          && icontains u.last_name ((splitWs (strip q)).getLastD ""))).take 10
  ∧ ∀ p : String, (search_users_flexible db p).length ≤ 10 := by
  have hne : strip q ≠ "" := by
    intro h0
    rw [h0] at h
    exact absurd h (by decide)
  have hmain : search_users_flexible db q
      = (db.filter (fun u =>
          icontains u.first_name ((splitWs (strip q)).headD "")
          && icontains u.last_name ((splitWs (strip q)).getLastD ""))).take 10 := by
    unfold search_users_flexible
    dsimp only
    rw [if_neg hne, if_pos h, if_pos (by omega : 2 ≤ (splitWs (strip q)).length),
        if_neg (by omega : ¬(splitWs (strip q)).length = 1)]
    by_cases hE : (db.filter (fun u =>
        icontains u.first_name ((splitWs (strip q)).headD "")
        && icontains u.last_name ((splitWs (strip q)).getLastD ""))) = []
    · have hEq : (db.filter (fun u =>
          iexact u.first_name ((splitWs (strip q)).headD "")
          && iexact u.last_name ((splitWs (strip q)).getLastD ""))) = [] := by
        rw [List.filter_eq_nil_iff]
        intro u hu hcontra
        rw [Bool.and_eq_true] at hcontra
        have hgoal := List.filter_eq_nil_iff.mp hE u hu
        rw [Bool.and_eq_true] at hgoal
        exact hgoal ⟨iexact_icontains hcontra.1, iexact_icontains hcontra.2⟩
      rw [hE, hEq]
      simp
    · have hB : (db.filter (fun u =>
          icontains u.first_name ((splitWs (strip q)).headD "")
          && icontains u.last_name ((splitWs (strip q)).getLastD ""))).isEmpty = false :=
        List.isEmpty_eq_false.mpr hE
      rw [hB]
      simp
  exact ⟨hmain, fun p => search_users_flexible_le_ten db p⟩

/-- The registry entry for the C5 witness. -/
def irene : RUser where
  id := 3
  first_name := "Irene"
  last_name := "Tinka"
  gender := "F"
  lunches_remaining := 3
  dinners_remaining := 3
  drinks_remaining := 15
  has_friday_lunch := false
  has_saturday_lunch := false
  has_bbq := false
  week_start := 0

/-- Witness for C5: the spec's example — "Irene T Tinka" against a registry
holding (Irene, Tinka) and an unrelated person returns exactly Irene. -/
theorem search_three_tokens_witness :
    search_users_flexible [sampleUser, irene] "Irene T Tinka" = [irene] :=
  (search_three_tokens [sampleUser, irene] "Irene T Tinka" (by decide)).1.trans
    (by decide)

/-! ## C6: follow-up resolution -/

/-- The trailing trigger block never touches the matched ids or the
resolved name. -/
theorem apply_person_triggers_fields (message : String) (i : Intent) :
    (apply_person_triggers message i).matched_user_ids = i.matched_user_ids
  ∧ (apply_person_triggers message i).specific_user_name = i.specific_user_name := by
  unfold apply_person_triggers
  split
  · exact ⟨rfl, rfl⟩
  · exact ⟨rfl, rfl⟩

/-- If no scanned message resolves, the follow-up loop yields nothing. -/
theorem find_prev_resolved_none (db : List RUser) (msgs : List String)
    (h : ∀ m ∈ msgs, (classify_solo db m).matched_user_ids = []) :
    find_prev_resolved db msgs = none := by
  induction msgs with
  | nil => rfl
  | cons m rest ih =>
    unfold find_prev_resolved
    dsimp only
    rw [if_pos (by rw [h m (List.mem_cons_self m rest)]; rfl)]
    exact ih (fun m2 hm2 => h m2 (List.mem_cons_of_mem m hm2))

/-- The follow-up loop yields the classification of the first message that
resolves and looks no further. -/
theorem find_prev_resolved_first (db : List RUser) (pre : List String)
    (m : String) (post : List String)
    (hpre : ∀ m2 ∈ pre, (classify_solo db m2).matched_user_ids = [])
    (hm : (classify_solo db m).matched_user_ids ≠ []) :
    find_prev_resolved db (pre ++ m :: post) = some (classify_solo db m) := by
  induction pre with
  | nil =>
    rw [List.nil_append]
    unfold find_prev_resolved
    dsimp only
    rw [if_neg (by
      intro hI
      exact hm (List.isEmpty_iff.mp hI))]
  | cons p rest ih =>
    rw [List.cons_append]
    unfold find_prev_resolved
    dsimp only
    rw [if_pos (by rw [hpre p (List.mem_cons_self p rest)]; rfl)]
    exact ih (fun m2 hm2 => hpre m2 (List.mem_cons_of_mem p hm2))

/-- C6 (amended): when the current message matches no person directly, the
history is non-empty and the message contains a follow-up cue, the
classifier scans at most 5 prior user messages — newest first, excluding
every history entry whose stripped content equals the stripped current
message (in particular the current message itself) — re-classifies each
without history, adopts the identifiers and name of the first scanned
message that resolves, and stops there; if none resolves the intent keeps
no identifiers. -/
theorem classify_followup_adoption (db : List RUser) (message : String)
    (history : List HMsg)
    (h1 : (base_intent db message).matched_user_ids = [])
    (h2 : history ≠ [])
    (h3 : followup_cues.any (fun cue => strContains (lowr message) cue) = true) :
    (recent_user_msgs history message).length ≤ 5
  ∧ ((∀ m ∈ recent_user_msgs history message,
        (classify_solo db m).matched_user_ids = []) →
      (classify_query_intent db message history).matched_user_ids = [])
  ∧ (∀ pre m post, recent_user_msgs history message = pre ++ m :: post →
      (∀ m2 ∈ pre, (classify_solo db m2).matched_user_ids = []) →
      (classify_solo db m).matched_user_ids ≠ [] →
      (classify_query_intent db message history).matched_user_ids
          = (classify_solo db m).matched_user_ids
        ∧ (classify_query_intent db message history).specific_user_name
          = (classify_solo db m).specific_user_name) := by
  have hcond : ((base_intent db message).matched_user_ids.isEmpty
      && !history.isEmpty) = true := by
    rw [h1]
    cases history with
    | nil => exact absurd rfl h2
    | cons a t => rfl
  refine ⟨?_, ?_, ?_⟩
  · exact List.length_take_le 5 _
  · intro hall
    unfold classify_query_intent
    dsimp only
    rw [hcond, if_pos rfl, if_pos h3, find_prev_resolved_none db _ hall]
    dsimp only
    rw [(apply_person_triggers_fields message _).1]
    exact h1
  · intro pre m post hsplit hpre hm
    unfold classify_query_intent
    dsimp only
    rw [hcond, if_pos rfl, if_pos h3, hsplit,
        find_prev_resolved_first db pre m post hpre hm]
    dsimp only
    rw [(apply_person_triggers_fields message _).1,
        (apply_person_triggers_fields message _).2]
    exact ⟨rfl, rfl⟩

/-- The Jane Doe registry entry of the spec's follow-up example. -/
def jane : RUser where
  id := 1
  first_name := "Jane"
  last_name := "Doe"
  gender := "F"
  lunches_remaining := 3
  dinners_remaining := 3
  drinks_remaining := 15
  has_friday_lunch := false
  has_saturday_lunch := false
  has_bbq := false
  week_start := 0

/-- The spec example's history: a question about Jane Doe, the assistant's
answer, then the follow-up itself (the call sites persist the current
message before building the history). -/
def janeHist : List HMsg :=
  [⟨"user", "How is Jane Doe doing?"⟩, ⟨"assistant", "She is fine."⟩,
   ⟨"user", "tell me more about them"⟩]

/-- Witness for C6 (amended): the follow-up "tell me more about them"
adopts Jane Doe's identifier found in the prior message. -/
theorem classify_followup_adoption_witness :
    (classify_query_intent [jane] "tell me more about them" janeHist).matched_user_ids
      = [1] := by
  have h := (classify_followup_adoption [jane] "tell me more about them" janeHist
    (by decide) (by decide) (by decide)).2.2
    [] "How is Jane Doe doing?" [] (by decide) (by intro m2 hm2; cases hm2)
    (by decide)
  rw [h.1]
  decide

/-- A deeper history: five unresolvable recent questions, a duplicate of
the upcoming follow-up, and — six prior user messages back — the Jane Doe
question; the final entry is the current message itself. -/
def dupHist : List HMsg :=
  [⟨"user", "How is Jane Doe doing?"⟩, ⟨"assistant", "a"⟩,
   ⟨"user", "q1"⟩, ⟨"assistant", "a"⟩,
   ⟨"user", "q2"⟩, ⟨"assistant", "a"⟩,
   ⟨"user", "q3"⟩, ⟨"assistant", "a"⟩,
   ⟨"user", "q4"⟩, ⟨"assistant", "a"⟩,
   ⟨"user", "tell me more about them"⟩, ⟨"assistant", "a"⟩,
   ⟨"user", "tell me more about them"⟩]

/-- Counterexample to C6 as stated: the code excludes prior messages by
content equality with the current message, not by position.  Here the
current follow-up has no direct match and carries a cue, and the 5 most
recent prior user messages (excluding the current one) — the duplicate
"tell me more about them" and q4..q1 — resolve to nobody, so under the
claim the intent would keep no identifiers; but the code skips the
duplicate, scans a sixth-most-recent message, and adopts Jane Doe's
identifier from it. -/
theorem classify_followup_counterexample :
    (base_intent [jane] "tell me more about them").matched_user_ids = []
  ∧ followup_cues.any
      (fun cue => strContains (lowr "tell me more about them") cue) = true
  ∧ spec_recent_user_msgs dupHist
      = ["tell me more about them", "q4", "q3", "q2", "q1"]
  ∧ (match find_prev_resolved [jane] (spec_recent_user_msgs dupHist) with
     | some p => p.matched_user_ids
     | none => []) = []
  ∧ (classify_query_intent [jane] "tell me more about them" dupHist).matched_user_ids
      = [1] := by
  refine ⟨by decide, by decide, by decide, by decide, by decide⟩
